import Mathlib

/-!
# Snake game core (`Snake.c++`)

A shallow embedding of the gameplay logic of `Snake.c++`: the global session
state (`currentDirection`, `snake`, `foodX`, `foodY`, the random source), the
functions `initGame`, `updateSnake`, `checkCollision`, `checkFoodCollision`,
`spawnFood`, `keyCallback`, and the body of one simulation tick of `gameLoop`.

Modelling conventions.

* `int` coordinates are `Int`. Coordinates of states produced by the game stay
  in `[-1, GRID_SIZE]`, far from the limits of a 32-bit `int`.
* `std::deque<SnakeSegment>` is a `List SnakeSegment`, head of the snake first.
* `snake.front()` on an empty deque is undefined behaviour; the functions that
  read it return `none` on an empty body.
* `randomGridPos(rng)` is a stream of samples `Nat → Int`; each call consumes
  the sample at index `0` and shifts the stream.
* The `do … while` loop of `spawnFood` is run with a fuel bound (number of loop
  iterations allowed); `none` also stands for "fuel exhausted".
* Rendering, window handling and the frame-time accumulator are not modelled.
-/

namespace Snake

/-! ## Constants and data model -/

/-- Grid dimension: `const int GRID_SIZE = 20;`. -/
def GRID_SIZE : Int := 20

/-- Initial body length: `const int INITIAL_SNAKE_LENGTH = 3;`. -/
def INITIAL_SNAKE_LENGTH : Nat := 3

/-- The four movement directions: `enum class Direction`. -/
inductive Direction where
  | UP
  | DOWN
  | LEFT
  | RIGHT
  deriving DecidableEq, Repr

/-- One body cell: `struct SnakeSegment { int x, y; }`. -/
structure SnakeSegment where
  x : Int
  y : Int
  deriving DecidableEq, Repr

/-- The global session state of the program. -/
structure Game where
  /-- Global `currentDirection`. -/
  currentDirection : Direction
  /-- Global `snake`, head first. -/
  snake : List SnakeSegment
  /-- Global `foodX`. -/
  foodX : Int
  /-- Global `foodY`. -/
  foodY : Int
  /-- Remaining outputs of `randomGridPos(rng)`, next one at index `0`. -/
  rng : Nat → Int

/-- Keys distinguished by the `switch (key)` of `keyCallback`; every key other
than the four arrow keys falls into `default`. -/
inductive Key where
  | KEY_UP
  | KEY_DOWN
  | KEY_LEFT
  | KEY_RIGHT
  | other
  deriving DecidableEq, Repr

/-- Key actions reported to `keyCallback`. -/
inductive Action where
  | RELEASE
  | PRESS
  | REPEAT
  deriving DecidableEq, Repr

/-! ## Operations -/

/-- The `switch (currentDirection)` of `updateSnake`, applied to a copy of the
head. -/
def moveHead (d : Direction) (newHead : SnakeSegment) : SnakeSegment :=
  match d with
  | Direction.UP => { newHead with y := newHead.y - 1 }
  | Direction.DOWN => { newHead with y := newHead.y + 1 }
  | Direction.LEFT => { newHead with x := newHead.x - 1 }
  | Direction.RIGHT => { newHead with x := newHead.x + 1 }

/-- Function `updateSnake`: copy the head, move the copy, `push_front` it and
`pop_back` the tail. -/
def updateSnake (g : Game) : Option Game :=
  match g.snake with
  | [] => none
  | front :: rest =>
    let newHead := moveHead g.currentDirection front
    some { g with snake := (newHead :: front :: rest).dropLast }

/-- The self-collision loop of `checkCollision`, from `snake.begin() + 1` to
`snake.end()`. -/
def selfCollisionScan (headX headY : Int) : List SnakeSegment → Bool
  | [] => false
  | it :: rest =>
    if headX = it.x ∧ headY = it.y then true
    else selfCollisionScan headX headY rest

/-- Function `checkCollision`. -/
def checkCollision (g : Game) : Option Bool :=
  match g.snake with
  | [] => none
  | front :: rest =>
    let headX := front.x
    let headY := front.y
    if headX < 0 ∨ headX ≥ GRID_SIZE ∨ headY < 0 ∨ headY ≥ GRID_SIZE then
      some true
    else if selfCollisionScan headX headY rest then
      some true
    else
      some false

/-- Function `checkFoodCollision`. -/
def checkFoodCollision (g : Game) : Option Bool :=
  match g.snake with
  | [] => none
  | front :: _ => some (decide (front.x = g.foodX ∧ front.y = g.foodY))

/-- The `std::find_if(...) != snake.end()` test of `spawnFood`: some segment
sits on `(foodX, foodY)`. -/
def onSnake (snake : List SnakeSegment) (foodX foodY : Int) : Bool :=
  snake.any (fun segment => decide (segment.x = foodX ∧ segment.y = foodY))

/-- Function `spawnFood`: draw `foodX`, then `foodY`, and repeat while the
drawn cell is on the snake. `fuel` bounds the number of loop iterations. -/
def spawnFood : Nat → Game → Option Game
  | 0, _ => none
  | fuel + 1, g =>
    let g1 : Game :=
      { g with foodX := g.rng 0, foodY := g.rng 1, rng := fun n => g.rng (n + 2) }
    if onSnake g1.snake g1.foodX g1.foodY then spawnFood fuel g1 else some g1

/-- The body built by `initGame` before it calls `spawnFood`: `clear`, one
`push_front` and the `push_back` loop for `i = 1 .. INITIAL_SNAKE_LENGTH - 1`. -/
def initialSnake : List SnakeSegment :=
  (List.range' 1 (INITIAL_SNAKE_LENGTH - 1)).foldl
    (fun snake i => snake ++ [⟨GRID_SIZE / 2 - (i : Int), GRID_SIZE / 2⟩])
    [⟨GRID_SIZE / 2, GRID_SIZE / 2⟩]

/-- Function `initGame`. It assigns `snake` and (through `spawnFood`) the food
and the random source, and nothing else. -/
def initGame (fuel : Nat) (g : Game) : Option Game :=
  spawnFood fuel { g with snake := initialSnake }

/-- Function `keyCallback` (the `window`, `scancode` and `mods` arguments are
unused by the source). -/
def keyCallback (g : Game) (key : Key) (action : Action) : Game :=
  if action = Action.PRESS ∨ action = Action.REPEAT then
    match key with
    | Key.KEY_UP =>
      if g.currentDirection ≠ Direction.DOWN then
        { g with currentDirection := Direction.UP } else g
    | Key.KEY_DOWN =>
      if g.currentDirection ≠ Direction.UP then
        { g with currentDirection := Direction.DOWN } else g
    | Key.KEY_LEFT =>
      if g.currentDirection ≠ Direction.RIGHT then
        { g with currentDirection := Direction.LEFT } else g
    | Key.KEY_RIGHT =>
      if g.currentDirection ≠ Direction.LEFT then
        { g with currentDirection := Direction.RIGHT } else g
    | Key.other => g
  else g

/-- One simulation tick: the body of `if (delta >= 1.0f)` in `gameLoop`, that
is `updateSnake`, the collision check with `initGame`, and the food check with
`push_back` and `spawnFood`. -/
def gameLoopTick (fuel : Nat) (g : Game) : Option Game := do
  let g1 ← updateSnake g
  let collided ← checkCollision g1
  let g2 ← if collided then initGame fuel g1 else some g1
  let ate ← checkFoodCollision g2
  if ate then
    spawnFood fuel { g2 with snake := g2.snake ++ [⟨g2.foodX, g2.foodY⟩] }
  else
    some g2

/-- All key events delivered by one or more `glfwPollEvents` calls, in order. -/
def keyEvents (g : Game) (events : List (Key × Action)) : Game :=
  events.foldl (fun st e => keyCallback st e.1 e.2) g

/-! ## Specification vocabulary -/

/-- The exact opposite of a direction. -/
def Direction.opposite : Direction → Direction
  | Direction.UP => Direction.DOWN
  | Direction.DOWN => Direction.UP
  | Direction.LEFT => Direction.RIGHT
  | Direction.RIGHT => Direction.LEFT

/-- The direction an arrow key asks for. -/
def Key.requested : Key → Option Direction
  | Key.KEY_UP => some Direction.UP
  | Key.KEY_DOWN => some Direction.DOWN
  | Key.KEY_LEFT => some Direction.LEFT
  | Key.KEY_RIGHT => some Direction.RIGHT
  | Key.other => none

/-- The `k`-th cell drawn from a sample stream: samples `2k` and `2k+1`. -/
def sampleAt (rng : Nat → Int) (k : Nat) : SnakeSegment :=
  ⟨rng (2 * k), rng (2 * k + 1)⟩

/-- Both coordinates lie in `[0, GRID_SIZE)`. -/
def inGrid (c : SnakeSegment) : Prop :=
  0 ≤ c.x ∧ c.x < GRID_SIZE ∧ 0 ≤ c.y ∧ c.y < GRID_SIZE

instance (c : SnakeSegment) : Decidable (inGrid c) :=
  inferInstanceAs (Decidable (0 ≤ c.x ∧ c.x < GRID_SIZE ∧ 0 ≤ c.y ∧ c.y < GRID_SIZE))

/-- The food cell of a state. -/
def Game.food (g : Game) : SnakeSegment := ⟨g.foodX, g.foodY⟩

/-- A stream that always yields the same two coordinates. -/
def constRng (a b : Int) : Nat → Int := fun n => if n % 2 = 0 then a else b

/-- The unit vector of a direction: Up = (0,-1), Down = (0,1), Left = (-1,0),
Right = (1,0). -/
def Direction.unitVector : Direction → Int × Int
  | Direction.UP => (0, -1)
  | Direction.DOWN => (0, 1)
  | Direction.LEFT => (-1, 0)
  | Direction.RIGHT => (1, 0)

/-- A key event that `keyCallback` acts on: an arrow key, pressed or repeated. -/
def isArrowPress (e : Key × Action) : Bool :=
  decide (e.1 ≠ Key.other ∧ e.2 ≠ Action.RELEASE)

/-- The state `spawnFood` ends in when the `k`-th drawn cell is accepted. -/
def foodPlaced (g : Game) (k : Nat) : Game :=
  { g with
    foodX := g.rng (2 * k)
    foodY := g.rng (2 * k + 1)
    rng := fun n => g.rng (n + 2 * (k + 1)) }

/-! ## Runs of the program -/

/-- The globals when `main` calls `initGame`: `currentDirection` holds its
initialiser `RIGHT`, `snake` is empty, `foodX` and `foodY` are zero-initialised,
and `rng` is the stream the random source will produce. -/
def programStart (rng : Nat → Int) : Game := ⟨Direction.RIGHT, [], 0, 0, rng⟩

/-- States the program can be in between ticks: the state `initGame` returns
when called from `main`, closed under full ticks of `gameLoop` and under key
events delivered to `keyCallback`. -/
inductive Reachable : Game → Prop where
  | init (fuel : Nat) (rng : Nat → Int) (g : Game) :
      initGame fuel (programStart rng) = some g → Reachable g
  | tick (fuel : Nat) (g g' : Game) :
      Reachable g → gameLoopTick fuel g = some g' → Reachable g'
  | key (g : Game) (key : Key) (action : Action) :
      Reachable g → Reachable (keyCallback g key action)

/-- The result of `n` consecutive ticks of `gameLoop` with no key event in
between. -/
def gameLoopTicks (fuel : Nat) : Nat → Game → Option Game
  | 0, g => some g
  | n + 1, g => (gameLoopTick fuel g).bind (gameLoopTicks fuel n)

/-! ## Invariants named by the specification -/

/-- Every segment of a body lies inside the grid. -/
def AllInGrid (body : List SnakeSegment) : Prop := ∀ s ∈ body, inGrid s

/-- The food cell is inside the grid and coincides with no body segment. -/
def FoodOK (g : Game) : Prop := inGrid g.food ∧ g.food ∉ g.snake

instance (g : Game) : Decidable (FoodOK g) :=
  inferInstanceAs (Decidable (inGrid g.food ∧ g.food ∉ g.snake))

/-- Every sample of a stream lies in `[0, GRID_SIZE - 1]`, the range of
`randomGridPos`. -/
def rngInRange (rng : Nat → Int) : Prop := ∀ n, 0 ≤ rng n ∧ rng n ≤ GRID_SIZE - 1

/-- A stream offers a cell off `body` again and again. -/
def offersFreeCells (rng : Nat → Int) (body : List SnakeSegment) : Prop :=
  ∀ m, ∃ k, m ≤ k ∧ sampleAt rng k ∉ body

/-- No two segments share a coordinate, the last one set aside: the segments
before the last are pairwise distinct, and the last one either differs from all
of them or is a copy of the head. -/
def DistinctButLast (body : List SnakeSegment) : Prop :=
  body.dropLast.Nodup ∧ (body.Nodup ∨ body.getLast? = body.head?)

/-! ## Reference behaviour -/

/-- Collision as section 4.3 of the specification words it: the head lies
outside the grid or equals another segment. -/
def specCollides (body : List SnakeSegment) : Bool :=
  match body with
  | [] => false
  | head :: others => decide (¬ inGrid head ∨ head ∈ others)

/-- Reference body step, following `step()` of section 4.2 of the
specification: the new head is the head plus the unit vector and is always
prepended; the tail cell is removed unless the new head equals the food cell;
afterwards a collision resets the body to the initial three cells. -/
def specStepBody (d : Direction) (food : SnakeSegment) (body : List SnakeSegment) :
    List SnakeSegment :=
  match body with
  | [] => []
  | head :: others =>
    let newHead : SnakeSegment := ⟨head.x + d.unitVector.1, head.y + d.unitVector.2⟩
    let moved :=
      if newHead = food then newHead :: head :: others
      else (newHead :: head :: others).dropLast
    if specCollides moved then [⟨10, 10⟩, ⟨9, 10⟩, ⟨8, 10⟩] else moved

/-! ## Direction requests in a sequence of key events -/

/-- The directions requested by a sequence of key events, in order: one for
each press or repeat of an arrow key. -/
def requests (events : List (Key × Action)) : List Direction :=
  events.filterMap fun e =>
    if e.2 = Action.PRESS ∨ e.2 = Action.REPEAT then e.1.requested else none

/-- The guard shared by the four cases of `keyCallback`: a request `r` is
dropped when the current direction is the opposite of `r`, and written
otherwise. -/
def turn (cur r : Direction) : Direction :=
  if cur = r.opposite then cur else r

/-- Some request perpendicular to `d` is followed, later in the list, by a
request for the opposite of `d`. -/
def perpThenOpposite (d : Direction) : List Direction → Bool
  | [] => false
  | r :: rs =>
    (decide (r ≠ d ∧ r ≠ d.opposite) && decide (d.opposite ∈ rs)) || perpThenOpposite d rs

/-! ## Sample states -/

/-- Freshly started game heading Right, food at (5,5). -/
def startState : Game := ⟨Direction.RIGHT, [⟨10, 10⟩, ⟨9, 10⟩, ⟨8, 10⟩], 5, 5, constRng 5 5⟩

/-- Initial body with the food right in front of the head. -/
def eatState : Game := ⟨Direction.RIGHT, [⟨10, 10⟩, ⟨9, 10⟩, ⟨8, 10⟩], 11, 10, constRng 5 5⟩

/-- Head at the right edge, heading Right. -/
def wallState : Game := ⟨Direction.RIGHT, [⟨19, 10⟩, ⟨18, 10⟩, ⟨17, 10⟩], 5, 5, constRng 5 5⟩

/-- A snake of length four at the right edge, heading Right. -/
def longWallState : Game :=
  ⟨Direction.RIGHT, [⟨19, 10⟩, ⟨18, 10⟩, ⟨17, 10⟩, ⟨16, 10⟩], 5, 5, constRng 5 5⟩

/-- Sample stream whose first cells are (10,10), (9,10) and then (5,5) for ever. -/
def busyRng : Nat → Int :=
  fun n => if n < 2 then 10 else if n = 2 then 9 else if n = 3 then 10 else 5

/-- Initial body with a stream whose first two cells are occupied. -/
def busyState : Game := ⟨Direction.UP, [⟨10, 10⟩, ⟨9, 10⟩, ⟨8, 10⟩], 0, 0, busyRng⟩

/-- Head at the left edge, heading Left. -/
def leftWallState : Game := ⟨Direction.LEFT, [⟨0, 10⟩, ⟨1, 10⟩, ⟨2, 10⟩], 5, 5, constRng 5 5⟩

/-- Sample stream whose first cell is (11,10), followed by (5,5) for ever. -/
def feedRng : Nat → Int := fun n => if n = 0 then 11 else if n = 1 then 10 else 5

/-- Freshly reset body heading Left, food at (5,5). -/
def leftResetState : Game :=
  ⟨Direction.LEFT, [⟨10, 10⟩, ⟨9, 10⟩, ⟨8, 10⟩], 5, 5, constRng 5 5⟩

/-- The state `initGame` returns at program start when every sample is 5. -/
def freshState : Game :=
  ⟨Direction.RIGHT, [⟨10, 10⟩, ⟨9, 10⟩, ⟨8, 10⟩], 5, 5, fun n => constRng 5 5 (n + 2)⟩

/-- The state `initGame` returns at program start with the stream `feedRng`:
the food lies right in front of the head. -/
def fedState : Game :=
  ⟨Direction.RIGHT, [⟨10, 10⟩, ⟨9, 10⟩, ⟨8, 10⟩], 11, 10, fun n => feedRng (n + 2)⟩

/-- The state one tick after `fedState`: the snake has eaten. -/
def grownState : Game :=
  ⟨Direction.RIGHT, [⟨11, 10⟩, ⟨10, 10⟩, ⟨9, 10⟩, ⟨11, 10⟩], 5, 5,
    fun n => feedRng (n + 2 + 2)⟩

/-- The state `grownState` after a press of Up. -/
def grownUpState : Game :=
  ⟨Direction.UP, [⟨11, 10⟩, ⟨10, 10⟩, ⟨9, 10⟩, ⟨11, 10⟩], 5, 5,
    fun n => feedRng (n + 2 + 2)⟩

/-! ## Basic facts -/

theorem initialSnake_eq : initialSnake = [⟨10, 10⟩, ⟨9, 10⟩, ⟨8, 10⟩] := by decide

theorem onSnake_iff (snake : List SnakeSegment) (fx fy : Int) :
    onSnake snake fx fy = true ↔ (⟨fx, fy⟩ : SnakeSegment) ∈ snake := by
  unfold onSnake
  rw [List.any_eq_true]
  constructor
  · rintro ⟨s, hs, h⟩
    have h2 : s.x = fx ∧ s.y = fy := by simpa using h
    have : s = ⟨fx, fy⟩ := by
      cases s
      simp_all
    exact this ▸ hs
  · intro h
    exact ⟨⟨fx, fy⟩, h, by simp⟩

theorem selfCollisionScan_iff (hx hy : Int) (l : List SnakeSegment) :
    selfCollisionScan hx hy l = true ↔ (⟨hx, hy⟩ : SnakeSegment) ∈ l := by
  induction l with
  | nil => simp [selfCollisionScan]
  | cons s rest ih =>
    unfold selfCollisionScan
    by_cases h : hx = s.x ∧ hy = s.y
    · have : (⟨hx, hy⟩ : SnakeSegment) = s := by
        cases s
        simp_all
      simp [h, this]
    · have : (⟨hx, hy⟩ : SnakeSegment) ≠ s := by
        intro e
        apply h
        rw [← e]
        exact ⟨rfl, rfl⟩
      simp [h, ih, this]

theorem spawnFood_first_free (k : Nat) : ∀ (g : Game),
    sampleAt g.rng k ∉ g.snake → (∀ j, j < k → sampleAt g.rng j ∈ g.snake) →
    ∀ fuel, k < fuel → spawnFood fuel g = some (foodPlaced g k) := by
  induction k with
  | zero =>
    intro g hfree _ fuel hfuel
    obtain ⟨f, rfl⟩ : ∃ f, fuel = f + 1 := ⟨fuel - 1, by omega⟩
    have h0 : onSnake g.snake (g.rng 0) (g.rng 1) = false := by
      rw [Bool.eq_false_iff, Ne, onSnake_iff]
      simpa [sampleAt] using hfree
    simp [spawnFood, h0, foodPlaced]
  | succ k ih =>
    intro g hfree hocc fuel hfuel
    obtain ⟨f, rfl⟩ : ∃ f, fuel = f + 1 := ⟨fuel - 1, by omega⟩
    have h0 : onSnake g.snake (g.rng 0) (g.rng 1) = true := by
      rw [onSnake_iff]
      simpa [sampleAt] using hocc 0 (Nat.succ_pos k)
    have hshift : ∀ j, sampleAt (fun n => g.rng (n + 2)) j = sampleAt g.rng (j + 1) := by
      intro j
      simp [sampleAt, Nat.mul_add, Nat.add_assoc]
    have hrec := ih
      { g with foodX := g.rng 0, foodY := g.rng 1, rng := fun n => g.rng (n + 2) }
      (by simpa [hshift] using hfree)
      (by
        intro j hj
        simpa [hshift] using hocc (j + 1) (by omega))
      f (by omega)
    simp only [spawnFood, h0, if_true]
    rw [hrec]
    simp only [foodPlaced, Option.some.injEq]
    have e1 : 2 * k + 2 = 2 * (k + 1) := by omega
    have e2 : 2 * k + 1 + 2 = 2 * (k + 1) + 1 := by omega
    have e3 : ∀ n, n + 2 * (k + 1) + 2 = n + 2 * (k + 1 + 1) := by intro n; omega
    simp only [e1, e2, e3]

theorem spawnFood_some : ∀ (fuel : Nat) (g g' : Game), spawnFood fuel g = some g' →
    g'.snake = g.snake ∧ g'.currentDirection = g.currentDirection ∧ g'.food ∉ g.snake := by
  intro fuel
  induction fuel with
  | zero =>
    intro g g' h
    simp [spawnFood] at h
  | succ f ih =>
    intro g g' h
    unfold spawnFood at h
    by_cases hc : onSnake g.snake (g.rng 0) (g.rng 1) = true
    · simp only [hc, if_true] at h
      have hrec := ih _ _ h
      exact hrec
    · simp only [hc] at h
      have hg : g' = { g with foodX := g.rng 0, foodY := g.rng 1, rng := fun n => g.rng (n + 2) } := by
        simpa using h.symm
      subst hg
      refine ⟨rfl, rfl, ?_⟩
      rw [onSnake_iff] at hc
      exact hc

theorem opposite_ne (d : Direction) : d ≠ d.opposite := by
  cases d <;> decide

theorem keyCallback_direction_ne_opposite (g : Game) (key : Key) (action : Action) :
    (keyCallback g key action).currentDirection ≠ g.currentDirection.opposite := by
  obtain ⟨d, sn, fx, fy, r⟩ := g
  cases key <;> cases action <;> cases d <;> simp [keyCallback, Direction.opposite]

theorem updateSnake_cons (g : Game) (head : SnakeSegment) (rest : List SnakeSegment)
    (hs : g.snake = head :: rest) :
    updateSnake g =
      some { g with snake := moveHead g.currentDirection head :: g.snake.dropLast } := by
  unfold updateSnake
  rw [hs]
  simp [List.dropLast]

theorem moveHead_unitVector (d : Direction) (c : SnakeSegment) :
    moveHead d c = ⟨c.x + d.unitVector.1, c.y + d.unitVector.2⟩ := by
  cases d <;> simp [moveHead, Direction.unitVector] <;> rfl

theorem checkCollision_cons (g : Game) (head : SnakeSegment) (rest : List SnakeSegment)
    (hs : g.snake = head :: rest) :
    checkCollision g = some (decide (¬ inGrid head ∨ head ∈ rest)) := by
  unfold checkCollision
  rw [hs]
  obtain ⟨hx, hy⟩ := head
  by_cases hb : hx < 0 ∨ hx ≥ GRID_SIZE ∨ hy < 0 ∨ hy ≥ GRID_SIZE
  · have hg : ¬ inGrid ⟨hx, hy⟩ := by
      unfold inGrid
      simp only
      omega
    simp [hb, hg]
  · have hg : inGrid ⟨hx, hy⟩ := by
      unfold inGrid
      simp only
      omega
    by_cases hm : (⟨hx, hy⟩ : SnakeSegment) ∈ rest
    · have := (selfCollisionScan_iff hx hy rest).2 hm
      simp [hb, hg, hm, this]
    · have : selfCollisionScan hx hy rest = false := by
        rw [Bool.eq_false_iff, Ne, selfCollisionScan_iff]
        exact hm
      simp [hb, hg, hm, this]

theorem checkFoodCollision_cons (g : Game) (head : SnakeSegment) (rest : List SnakeSegment)
    (hs : g.snake = head :: rest) :
    checkFoodCollision g = some (decide (head = g.food)) := by
  unfold checkFoodCollision
  rw [hs]
  obtain ⟨hx, hy⟩ := head
  simp [Game.food]

theorem gameLoopTick_plain (fuel : Nat) (g g1 : Game)
    (hu : updateSnake g = some g1) (hc : checkCollision g1 = some false)
    (hf : checkFoodCollision g1 = some false) :
    gameLoopTick fuel g = some g1 := by
  simp [gameLoopTick, hu, hc, hf]

theorem gameLoopTick_eat (fuel : Nat) (g g1 : Game)
    (hu : updateSnake g = some g1) (hc : checkCollision g1 = some false)
    (hf : checkFoodCollision g1 = some true) :
    gameLoopTick fuel g =
      spawnFood fuel { g1 with snake := g1.snake ++ [⟨g1.foodX, g1.foodY⟩] } := by
  simp [gameLoopTick, hu, hc, hf]

theorem initialSnake_ne_nil : initialSnake ≠ [] := by decide

theorem gameLoopTick_reset (fuel : Nat) (g g1 g2 : Game)
    (hu : updateSnake g = some g1) (hc : checkCollision g1 = some true)
    (hi : initGame fuel g1 = some g2) :
    gameLoopTick fuel g = some g2 := by
  obtain ⟨hsn, -, hfree⟩ := spawnFood_some fuel _ _ hi
  simp only at hsn hfree
  have hne : g2.snake = ⟨10, 10⟩ :: [⟨9, 10⟩, ⟨8, 10⟩] := by rw [hsn, initialSnake_eq]
  have hf : checkFoodCollision g2 = some false := by
    rw [checkFoodCollision_cons g2 _ _ hne]
    have : (⟨10, 10⟩ : SnakeSegment) ≠ g2.food := by
      intro e
      apply hfree
      rw [← e, initialSnake_eq]
      simp
    simp [this]
  simp [gameLoopTick, hu, hc, hi, hf]

theorem gameLoopTick_direction (fuel : Nat) (g g' : Game)
    (h : gameLoopTick fuel g = some g') :
    g'.currentDirection = g.currentDirection := by
  cases hsn : g.snake with
  | nil => simp [gameLoopTick, updateSnake, hsn] at h
  | cons head rest =>
    have hu := updateSnake_cons g head rest hsn
    obtain ⟨c, hc⟩ : ∃ c, checkCollision
        { g with snake := moveHead g.currentDirection head :: g.snake.dropLast } = some c :=
      ⟨_, checkCollision_cons _ _ _ rfl⟩
    cases c with
    | true =>
      cases hi : initGame fuel
          { g with snake := moveHead g.currentDirection head :: g.snake.dropLast } with
      | none => simp [gameLoopTick, hu, hc, hi] at h
      | some g2 =>
        rw [gameLoopTick_reset fuel g _ g2 hu hc hi] at h
        have hd := (spawnFood_some fuel _ _ hi).2.1
        cases h
        exact hd
    | false =>
      obtain ⟨f, hf⟩ : ∃ f, checkFoodCollision
          { g with snake := moveHead g.currentDirection head :: g.snake.dropLast } = some f :=
        ⟨_, checkFoodCollision_cons _ _ _ rfl⟩
      cases f with
      | true =>
        rw [gameLoopTick_eat fuel g _ hu hc hf] at h
        exact (spawnFood_some fuel _ _ h).2.1
      | false =>
        rw [gameLoopTick_plain fuel g _ hu hc hf] at h
        cases h
        rfl

theorem exists_first_free (rng : Nat → Int) (body : List SnakeSegment)
    (h : ∃ k, sampleAt rng k ∉ body) :
    ∃ k, sampleAt rng k ∉ body ∧ ∀ j, j < k → sampleAt rng j ∈ body := by
  classical
  refine ⟨Nat.find h, Nat.find_spec h, ?_⟩
  intro j hj
  exact not_not.mp (Nat.find_min h hj)

theorem gameLoopTick_eat_result (g : Game) (head : SnakeSegment) (rest : List SnakeSegment)
    (hs : g.snake = head :: rest)
    (heat : moveHead g.currentDirection head = g.food)
    (hnc : checkCollision
      { g with snake := moveHead g.currentDirection head :: g.snake.dropLast } = some false)
    (hrng : ∃ k, sampleAt g.rng k ∉ g.food :: g.snake.dropLast) :
    ∃ k, sampleAt g.rng k ∉ g.food :: g.snake.dropLast ∧ ∀ fuel, k < fuel →
      gameLoopTick fuel g = some (foodPlaced
        { g with snake := g.food :: g.snake.dropLast ++ [g.food] } k) := by
  obtain ⟨k, hk, hmin⟩ := exists_first_free _ _ hrng
  refine ⟨k, hk, ?_⟩
  intro fuel hfuel
  have hu := updateSnake_cons g head rest hs
  have hf : checkFoodCollision
      { g with snake := moveHead g.currentDirection head :: g.snake.dropLast } = some true := by
    rw [checkFoodCollision_cons _ _ _ rfl]
    simp [Game.food, heat]
  rw [gameLoopTick_eat fuel g _ hu hnc hf]
  simp only [heat]
  have hmem : ∀ c, c ∈ g.food :: g.snake.dropLast ++ [g.food] ↔
      c ∈ g.food :: g.snake.dropLast := by
    intro c
    simp only [List.cons_append, List.mem_cons, List.mem_append, List.mem_singleton]
    tauto
  exact spawnFood_first_free k
    { g with snake := g.food :: g.snake.dropLast ++ [g.food] }
    (fun hin => hk ((hmem _).1 hin))
    (fun j hj => (hmem _).2 (hmin j hj))
    fuel hfuel

theorem gameLoopTick_reset_result (g : Game) (g1 : Game)
    (hu : updateSnake g = some g1) (hc : checkCollision g1 = some true)
    (hrng : ∃ k, sampleAt g.rng k ∉ initialSnake) :
    ∃ k, sampleAt g.rng k ∉ initialSnake ∧ ∀ fuel, k < fuel →
      gameLoopTick fuel g = some (foodPlaced { g with snake := initialSnake } k) := by
  obtain ⟨k, hk, hmin⟩ := exists_first_free _ _ hrng
  refine ⟨k, hk, ?_⟩
  intro fuel hfuel
  have hg1 : g1 = { g with snake := g1.snake } := by
    cases hsn : g.snake with
    | nil => simp [updateSnake, hsn] at hu
    | cons head rest =>
      rw [updateSnake_cons g head rest hsn] at hu
      cases hu
      rfl
  have hi : initGame fuel g1 = some (foodPlaced { g with snake := initialSnake } k) := by
    unfold initGame
    rw [hg1]
    exact spawnFood_first_free k { g with snake := initialSnake } hk hmin fuel hfuel
  exact gameLoopTick_reset fuel g g1 _ hu hc hi

theorem off_body_of_not_mem (c : SnakeSegment) (body : List SnakeSegment) (h : c ∉ body) :
    ∀ s ∈ body, ¬ (s.x = c.x ∧ s.y = c.y) := by
  intro s hs hxy
  apply h
  have : s = c := by
    cases s
    cases c
    simp_all
  exact this ▸ hs

/-! ## Claims about one tick that eats -/

/-- C1: from a state with non-empty body whose food cell is inside the grid and
on no body cell, a tick whose moved head lands on the food cell ends (given a
sample stream that offers a cell off the grown body, and enough loop fuel) with
a body one longer than before and with a food cell on no cell of the new body. -/
theorem gameLoopTick_eat_grows (g : Game) (head : SnakeSegment) (rest : List SnakeSegment)
    (hs : g.snake = head :: rest)
    (hgrid : inGrid g.food) (hoff : g.food ∉ g.snake)
    (heat : moveHead g.currentDirection head = g.food)
    (hrng : ∃ k, sampleAt g.rng k ∉ g.food :: g.snake.dropLast) :
    ∃ n, ∀ fuel, n ≤ fuel → ∃ g', gameLoopTick fuel g = some g' ∧
      g'.snake.length = g.snake.length + 1 ∧
      ∀ s ∈ g'.snake, ¬ (s.x = g'.foodX ∧ s.y = g'.foodY) := by
  have hnc : checkCollision
      { g with snake := moveHead g.currentDirection head :: g.snake.dropLast } = some false := by
    rw [checkCollision_cons _ _ _ rfl, heat]
    have : g.food ∉ g.snake.dropLast := fun hin => hoff (List.dropLast_subset _ hin)
    simp [hgrid, this]
  obtain ⟨k, hk, hres⟩ := gameLoopTick_eat_result g head rest hs heat hnc hrng
  refine ⟨k + 1, fun fuel hfuel => ⟨_, hres fuel (by omega), ?_, ?_⟩⟩
  · simp [foodPlaced, hs]
  · have hfree : sampleAt g.rng k ∉ g.food :: g.snake.dropLast ++ [g.food] := by
      intro hin
      apply hk
      simp only [List.cons_append, List.mem_cons, List.mem_append, List.mem_singleton] at hin
      simp only [List.mem_cons]
      tauto
    exact off_body_of_not_mem _ _ hfree

/-- Witness for C1: initial body, heading Right, food at (11,10). -/
theorem gameLoopTick_eat_grows_witness :
    inGrid eatState.food ∧ eatState.food ∉ eatState.snake ∧
    ∃ n, ∀ fuel, n ≤ fuel → ∃ g', gameLoopTick fuel eatState = some g' ∧
      g'.snake.length = eatState.snake.length + 1 ∧
      ∀ s ∈ g'.snake, ¬ (s.x = g'.foodX ∧ s.y = g'.foodY) :=
  ⟨by decide, by decide,
    gameLoopTick_eat_grows eatState ⟨10, 10⟩ [⟨9, 10⟩, ⟨8, 10⟩] rfl (by decide) (by decide)
      (by decide) ⟨0, by decide⟩⟩

/-- C2, as stated, fails on its own scenario: with food at (11,10), body
(10,10),(9,10),(8,10) and direction Right the tick ends with the body
(11,10),(10,10),(9,10),(11,10), not with the new head followed by the whole old
body. -/
theorem gameLoopTick_eat_drops_tail :
    (gameLoopTick 1 eatState).map (fun g => g.snake)
        = some [⟨11, 10⟩, ⟨10, 10⟩, ⟨9, 10⟩, ⟨11, 10⟩] ∧
    (gameLoopTick 1 eatState).map (fun g => g.snake)
        ≠ some (moveHead eatState.currentDirection ⟨10, 10⟩ :: eatState.snake) := by
  decide

/-- C2 (amended): when the moved head lands on the food cell and the moved body
does not collide, the tick ends (given a sample stream that offers a cell off
the new body, and enough loop fuel) with the body made of the new head, then
the old body without its last cell, then a copy of the new head. -/
theorem gameLoopTick_eat_body (g : Game) (head : SnakeSegment) (rest : List SnakeSegment)
    (hs : g.snake = head :: rest)
    (heat : moveHead g.currentDirection head = g.food)
    (hnc : (updateSnake g).bind checkCollision = some false)
    (hrng : ∃ k, sampleAt g.rng k ∉ g.food :: g.snake.dropLast) :
    ∃ n, ∀ fuel, n ≤ fuel → ∃ g', gameLoopTick fuel g = some g' ∧
      g'.snake = moveHead g.currentDirection head :: g.snake.dropLast
        ++ [moveHead g.currentDirection head] := by
  rw [updateSnake_cons g head rest hs] at hnc
  obtain ⟨k, -, hres⟩ := gameLoopTick_eat_result g head rest hs heat hnc hrng
  refine ⟨k + 1, fun fuel hfuel => ⟨_, hres fuel (by omega), ?_⟩⟩
  simp [foodPlaced, heat]

/-- Witness for C2 (amended): the scenario of the claim. -/
theorem gameLoopTick_eat_body_witness :
    ∃ n, ∀ fuel, n ≤ fuel → ∃ g', gameLoopTick fuel eatState = some g' ∧
      g'.snake = [⟨11, 10⟩, ⟨10, 10⟩, ⟨9, 10⟩, ⟨11, 10⟩] :=
  gameLoopTick_eat_body eatState ⟨10, 10⟩ [⟨9, 10⟩, ⟨8, 10⟩] rfl (by decide) (by decide)
    ⟨0, by decide⟩

/-! ## Claims about direction requests between ticks -/

theorem keyCallback_ignored (g : Game) (e : Key × Action) (h : isArrowPress e = false) :
    keyCallback g e.1 e.2 = g := by
  obtain ⟨key, action⟩ := e
  cases key <;> cases action <;> simp_all [isArrowPress, keyCallback]

theorem keyEvents_no_press : ∀ (events : List (Key × Action)) (g : Game),
    (events.filter isArrowPress).length = 0 → keyEvents g events = g := by
  intro events
  induction events with
  | nil =>
    intro g _
    rfl
  | cons e tl ih =>
    intro g h
    cases he : isArrowPress e with
    | true => simp [List.filter, he] at h
    | false =>
      have htl : (tl.filter isArrowPress).length = 0 := by simpa [List.filter, he] using h
      have hstep : keyEvents g (e :: tl) = keyEvents (keyCallback g e.1 e.2) tl := rfl
      rw [hstep, keyCallback_ignored g e he]
      exact ih g htl

theorem keyEvents_one_press : ∀ (events : List (Key × Action)) (g : Game),
    (events.filter isArrowPress).length ≤ 1 →
    (keyEvents g events).currentDirection ≠ g.currentDirection.opposite := by
  intro events
  induction events with
  | nil =>
    intro g _
    exact opposite_ne g.currentDirection
  | cons e tl ih =>
    intro g h
    have hstep : keyEvents g (e :: tl) = keyEvents (keyCallback g e.1 e.2) tl := rfl
    cases he : isArrowPress e with
    | true =>
      have htl : (tl.filter isArrowPress).length = 0 := by
        simp only [List.filter, he, List.length_cons] at h
        omega
      rw [hstep, keyEvents_no_press tl _ htl]
      exact keyCallback_direction_ne_opposite g e.1 e.2
    | false =>
      have htl : (tl.filter isArrowPress).length ≤ 1 := by simpa [List.filter, he] using h
      rw [hstep, keyCallback_ignored g e he]
      exact ih g htl

theorem keyCallback_turn (g : Game) (key : Key) (action : Action) :
    (keyCallback g key action).currentDirection
      = (requests [(key, action)]).foldl turn g.currentDirection := by
  obtain ⟨d, sn, fx, fy, r⟩ := g
  cases key <;> cases action <;> cases d <;> rfl

theorem requests_cons (e : Key × Action) (tl : List (Key × Action)) :
    requests (e :: tl) = requests [e] ++ requests tl := by
  unfold requests
  rw [← List.filterMap_append]
  rfl

theorem keyEvents_direction : ∀ (events : List (Key × Action)) (g : Game),
    (keyEvents g events).currentDirection
      = (requests events).foldl turn g.currentDirection := by
  intro events
  induction events with
  | nil =>
    intro g
    rfl
  | cons e tl ih =>
    intro g
    have hstep : keyEvents g (e :: tl) = keyEvents (keyCallback g e.1 e.2) tl := rfl
    rw [hstep, ih, requests_cons, List.foldl_append, keyCallback_turn]

theorem turn_ne (o cur r : Direction) (hcur : cur ≠ o) (hr : r ≠ o) : turn cur r ≠ o := by
  unfold turn
  split
  · exact hcur
  · exact hr

theorem foldl_turn_ne (o : Direction) : ∀ (rs : List Direction) (cur : Direction),
    cur ≠ o → o ∉ rs → rs.foldl turn cur ≠ o := by
  intro rs
  induction rs with
  | nil =>
    intro cur hcur _
    exact hcur
  | cons r tl ih =>
    intro cur hcur hmem
    rw [List.foldl_cons]
    exact ih _ (turn_ne o cur r hcur (fun h => hmem (h ▸ List.mem_cons_self _ _)))
      (fun h => hmem (List.mem_cons_of_mem _ h))

theorem foldl_turn_not_reversed (d : Direction) : ∀ (rs : List Direction),
    perpThenOpposite d rs = false → rs.foldl turn d ≠ d.opposite := by
  intro rs
  induction rs with
  | nil =>
    intro _
    exact opposite_ne d
  | cons r tl ih =>
    intro h
    simp only [perpThenOpposite, Bool.or_eq_false_iff, Bool.and_eq_false_iff,
      decide_eq_false_iff_not] at h
    obtain ⟨hhead, htl⟩ := h
    rw [List.foldl_cons]
    by_cases hperp : r ≠ d ∧ r ≠ d.opposite
    · have hmem : d.opposite ∉ tl := by
        rcases hhead with h1 | h2
        · exact absurd hperp h1
        · exact h2
      have hturn : turn d r = r := by
        cases d <;> cases r <;> simp_all [turn, Direction.opposite]
      rw [hturn]
      exact foldl_turn_ne d.opposite tl r hperp.2 hmem
    · have hturn : turn d r = d := by
        cases d <;> cases r <;> simp_all [turn, Direction.opposite]
      rw [hturn]
      exact ih htl

theorem perpThenOpposite_iff (d : Direction) : ∀ (rs : List Direction),
    perpThenOpposite d rs = true ↔
      ∃ pre p post, rs = pre ++ p :: post ∧ p ≠ d ∧ p ≠ d.opposite ∧ d.opposite ∈ post := by
  intro rs
  induction rs with
  | nil => simp [perpThenOpposite]
  | cons r tl ih =>
    simp only [perpThenOpposite, Bool.or_eq_true, Bool.and_eq_true, decide_eq_true_eq, ih]
    constructor
    · rintro (⟨⟨h1, h2⟩, h3⟩ | ⟨pre, p, post, rfl, h1, h2, h3⟩)
      · exact ⟨[], r, tl, rfl, h1, h2, h3⟩
      · exact ⟨r :: pre, p, post, rfl, h1, h2, h3⟩
    · rintro ⟨pre, p, post, heq, h1, h2, h3⟩
      cases pre with
      | nil =>
        simp only [List.nil_append, List.cons.injEq] at heq
        obtain ⟨rfl, rfl⟩ := heq
        exact Or.inl ⟨⟨h1, h2⟩, h3⟩
      | cons a pre2 =>
        simp only [List.cons_append, List.cons.injEq] at heq
        obtain ⟨rfl, rfl⟩ := heq
        exact Or.inr ⟨pre2, p, post, rfl, h1, h2, h3⟩

/-- C3, as stated, fails: after a tick that moved Right, the presses Up then
Left delivered before the next tick leave the direction Left, the exact
opposite of Right. -/
theorem two_presses_reverse_direction :
    ∃ g1, gameLoopTick 1 startState = some g1 ∧
      (keyEvents g1 [(Key.KEY_UP, Action.PRESS), (Key.KEY_LEFT, Action.PRESS)]).currentDirection
        = startState.currentDirection.opposite :=
  ⟨⟨Direction.RIGHT, [⟨11, 10⟩, ⟨10, 10⟩, ⟨9, 10⟩], 5, 5, constRng 5 5⟩, rfl, rfl⟩

/-- C3 (amended): for every starting direction and every finite sequence of key
events delivered between two consecutive ticks in which no press or repeat of
an arrow perpendicular to the earlier tick's direction is followed later by a
press or repeat of the arrow opposite to that direction, the direction used by
the later tick is not the exact opposite of the direction used by the earlier
tick. -/
theorem direction_not_reversed_without_turn (fuel : Nat) (g g1 : Game)
    (events : List (Key × Action))
    (htick : gameLoopTick fuel g = some g1)
    (hno : perpThenOpposite g.currentDirection (requests events) = false) :
    (keyEvents g1 events).currentDirection ≠ g.currentDirection.opposite := by
  rw [keyEvents_direction, gameLoopTick_direction fuel g g1 htick]
  exact foldl_turn_not_reversed g.currentDirection (requests events) hno

/-- Witness for C3 (amended): after a tick that moved Right, a press of Left
(rejected), then Up held down (press and two repeats), a release of Up and a
press of Right leave the direction Right. -/
theorem direction_not_reversed_without_turn_witness :
    perpThenOpposite startState.currentDirection
        (requests [(Key.KEY_LEFT, Action.PRESS), (Key.KEY_UP, Action.PRESS),
          (Key.KEY_UP, Action.REPEAT), (Key.KEY_UP, Action.REPEAT),
          (Key.KEY_UP, Action.RELEASE), (Key.KEY_RIGHT, Action.PRESS)]) = false ∧
    (keyEvents ⟨Direction.RIGHT, [⟨11, 10⟩, ⟨10, 10⟩, ⟨9, 10⟩], 5, 5, constRng 5 5⟩
        [(Key.KEY_LEFT, Action.PRESS), (Key.KEY_UP, Action.PRESS),
          (Key.KEY_UP, Action.REPEAT), (Key.KEY_UP, Action.REPEAT),
          (Key.KEY_UP, Action.RELEASE), (Key.KEY_RIGHT, Action.PRESS)]).currentDirection
      ≠ startState.currentDirection.opposite :=
  ⟨by decide,
    direction_not_reversed_without_turn 1 startState
      ⟨Direction.RIGHT, [⟨11, 10⟩, ⟨10, 10⟩, ⟨9, 10⟩], 5, 5, constRng 5 5⟩
      [(Key.KEY_LEFT, Action.PRESS), (Key.KEY_UP, Action.PRESS),
        (Key.KEY_UP, Action.REPEAT), (Key.KEY_UP, Action.REPEAT),
        (Key.KEY_UP, Action.RELEASE), (Key.KEY_RIGHT, Action.PRESS)] rfl (by decide)⟩

/-! ## Collision detection -/

/-- C4: on a non-empty body `checkCollision` returns a value, and that value is
true exactly when the head's x or y is outside `[0, GRID_SIZE)` or some segment
at an index other than 0 has the head's coordinates. -/
theorem checkCollision_iff (g : Game) (head : SnakeSegment) (rest : List SnakeSegment)
    (hs : g.snake = head :: rest) :
    ∃ b, checkCollision g = some b ∧
      (b = true ↔
        (head.x < 0 ∨ head.x ≥ GRID_SIZE ∨ head.y < 0 ∨ head.y ≥ GRID_SIZE) ∨
        ∃ i s, i ≠ 0 ∧ g.snake[i]? = some s ∧ s.x = head.x ∧ s.y = head.y) := by
  refine ⟨_, checkCollision_cons g head rest hs, ?_⟩
  have hgrid : ¬ inGrid head ↔
      (head.x < 0 ∨ head.x ≥ GRID_SIZE ∨ head.y < 0 ∨ head.y ≥ GRID_SIZE) := by
    unfold inGrid
    omega
  have hmem : head ∈ rest ↔
      ∃ i s, i ≠ 0 ∧ g.snake[i]? = some s ∧ s.x = head.x ∧ s.y = head.y := by
    rw [hs]
    constructor
    · intro hin
      obtain ⟨n, hn⟩ := List.mem_iff_getElem?.1 hin
      exact ⟨n + 1, head, Nat.succ_ne_zero n, by simpa using hn, rfl, rfl⟩
    · rintro ⟨i, s, hi, hget, hx, hy⟩
      obtain ⟨n, rfl⟩ : ∃ n, i = n + 1 := ⟨i - 1, by omega⟩
      have hsh : s = head := by
        cases s
        cases head
        simp_all
      rw [hsh] at hget
      exact List.mem_iff_getElem?.2 ⟨n, by simpa using hget⟩
  rw [decide_eq_true_iff, hgrid, hmem]

/-- Witness for C4: a head that sits on the segment at index 2. -/
theorem checkCollision_iff_witness :
    ∃ b, checkCollision ⟨Direction.LEFT, [⟨9, 10⟩, ⟨10, 10⟩, ⟨9, 10⟩], 5, 5, constRng 5 5⟩
        = some b ∧
      (b = true ↔
        ((9 : Int) < 0 ∨ (9 : Int) ≥ GRID_SIZE ∨ (10 : Int) < 0 ∨ (10 : Int) ≥ GRID_SIZE) ∨
        ∃ i s, i ≠ 0 ∧ ([⟨9, 10⟩, ⟨10, 10⟩, ⟨9, 10⟩] : List SnakeSegment)[i]? = some s ∧
          s.x = 9 ∧ s.y = 10) :=
  checkCollision_iff ⟨Direction.LEFT, [⟨9, 10⟩, ⟨10, 10⟩, ⟨9, 10⟩], 5, 5, constRng 5 5⟩
    ⟨9, 10⟩ [⟨10, 10⟩, ⟨9, 10⟩] rfl

/-! ## Food spawning -/

/-- C5: for every body and every sample stream with all samples in
`[0, GRID_SIZE - 1]` that offers at least one cell off the body, `spawnFood`
returns once it is allowed more loop iterations than the index `k` of the first
free cell; the food is then that cell, lies inside the grid and on no body
cell, and body and direction are unchanged. -/
theorem spawnFood_places_first_free (g : Game)
    (hrange : ∀ n, 0 ≤ g.rng n ∧ g.rng n ≤ GRID_SIZE - 1)
    (hfree : ∃ k, sampleAt g.rng k ∉ g.snake) :
    ∃ k, sampleAt g.rng k ∉ g.snake ∧ (∀ j, j < k → sampleAt g.rng j ∈ g.snake) ∧
      ∀ fuel, k < fuel → ∃ g', spawnFood fuel g = some g' ∧
        g'.food = sampleAt g.rng k ∧
        (0 ≤ g'.foodX ∧ g'.foodX < GRID_SIZE ∧ 0 ≤ g'.foodY ∧ g'.foodY < GRID_SIZE) ∧
        (∀ s ∈ g.snake, ¬ (s.x = g'.foodX ∧ s.y = g'.foodY)) ∧
        g'.snake = g.snake ∧ g'.currentDirection = g.currentDirection := by
  obtain ⟨k, hk, hmin⟩ := exists_first_free _ _ hfree
  refine ⟨k, hk, hmin, fun fuel hfuel =>
    ⟨_, spawnFood_first_free k g hk hmin fuel hfuel, rfl, ?_, ?_, rfl, rfl⟩⟩
  · have h1 := hrange (2 * k)
    have h2 := hrange (2 * k + 1)
    simp only [foodPlaced]
    omega
  · exact off_body_of_not_mem _ _ hk

/-- Witness for C5: the first two sampled cells lie on the body, the third is
free. -/
theorem spawnFood_places_first_free_witness :
    ∃ k, sampleAt busyState.rng k ∉ busyState.snake ∧
      (∀ j, j < k → sampleAt busyState.rng j ∈ busyState.snake) ∧
      ∀ fuel, k < fuel → ∃ g', spawnFood fuel busyState = some g' ∧
        g'.food = sampleAt busyState.rng k ∧
        (0 ≤ g'.foodX ∧ g'.foodX < GRID_SIZE ∧ 0 ≤ g'.foodY ∧ g'.foodY < GRID_SIZE) ∧
        (∀ s ∈ busyState.snake, ¬ (s.x = g'.foodX ∧ s.y = g'.foodY)) ∧
        g'.snake = busyState.snake ∧ g'.currentDirection = busyState.currentDirection :=
  spawnFood_places_first_free busyState
    (by
      intro n
      simp only [busyState, busyRng, GRID_SIZE]
      split_ifs <;> omega)
    ⟨2, by decide⟩

/-! ## Collision and reset -/

/-- C6: from a state with non-empty body whose moved body collides, the tick
ends (given a sample stream that offers a cell off the initial body, and enough
loop fuel) with the body (10,10),(9,10),(8,10) of length
`INITIAL_SNAKE_LENGTH` and with a food cell drawn from the stream that lies on
none of those three cells. -/
theorem gameLoopTick_collision_resets (g : Game)
    (hne : g.snake ≠ [])
    (hcol : (updateSnake g).bind checkCollision = some true)
    (hrng : ∃ k, sampleAt g.rng k ∉ initialSnake) :
    ∃ n, ∀ fuel, n ≤ fuel → ∃ g', gameLoopTick fuel g = some g' ∧
      g'.snake = [⟨10, 10⟩, ⟨9, 10⟩, ⟨8, 10⟩] ∧
      g'.snake.length = INITIAL_SNAKE_LENGTH ∧
      (∃ k, g'.food = sampleAt g.rng k) ∧
      ∀ s ∈ g'.snake, ¬ (s.x = g'.foodX ∧ s.y = g'.foodY) := by
  obtain ⟨head, rest, hs⟩ := List.exists_cons_of_ne_nil hne
  have hu := updateSnake_cons g head rest hs
  rw [hu] at hcol
  obtain ⟨k, hk, hres⟩ := gameLoopTick_reset_result g _ hu hcol hrng
  refine ⟨k + 1, fun fuel hfuel =>
    ⟨_, hres fuel (by omega), initialSnake_eq, ?_, ⟨k, rfl⟩, ?_⟩⟩
  · simp [foodPlaced, initialSnake_eq, INITIAL_SNAKE_LENGTH]
  · exact off_body_of_not_mem _ _ hk

/-- Witness for C6: head at (19,10), heading Right. -/
theorem gameLoopTick_collision_resets_witness :
    (updateSnake wallState).bind checkCollision = some true ∧
    ∃ n, ∀ fuel, n ≤ fuel → ∃ g', gameLoopTick fuel wallState = some g' ∧
      g'.snake = [⟨10, 10⟩, ⟨9, 10⟩, ⟨8, 10⟩] ∧
      g'.snake.length = INITIAL_SNAKE_LENGTH ∧
      (∃ k, g'.food = sampleAt wallState.rng k) ∧
      ∀ s ∈ g'.snake, ¬ (s.x = g'.foodX ∧ s.y = g'.foodY) :=
  ⟨by decide,
    gameLoopTick_collision_resets wallState (by decide) (by decide) ⟨0, by decide⟩⟩

/-- C7: `initGame` does not assign `currentDirection`. Called in a state heading
Left (here after running into the left wall) it returns a state still heading
Left, not Right; the same holds for the whole tick that performs the reset. -/
theorem initGame_left_stays_left :
    (initGame 1 leftWallState).map (fun g => g.currentDirection) = some Direction.LEFT ∧
    (gameLoopTick 1 leftWallState).map (fun g => (g.currentDirection, g.snake))
      = some (Direction.LEFT, [⟨10, 10⟩, ⟨9, 10⟩, ⟨8, 10⟩]) := by
  decide

/-- C8, as stated, fails: a body of length four whose head runs into the right
wall, with the food elsewhere, ends the tick with length three. -/
theorem gameLoopTick_collision_changes_length :
    longWallState.snake.length = 4 ∧
    moveHead longWallState.currentDirection ⟨19, 10⟩ ≠ longWallState.food ∧
    (gameLoopTick 1 longWallState).map (fun g => g.snake.length) = some 3 := by
  decide

/-- C8 (amended): from a state with non-empty body in which the cell the head
moves into is not the food cell and the moved body does not collide, the tick
returns and the body length after it equals the body length before it. -/
theorem gameLoopTick_plain_length (g : Game) (head : SnakeSegment) (rest : List SnakeSegment)
    (fuel : Nat)
    (hs : g.snake = head :: rest)
    (hfood : moveHead g.currentDirection head ≠ g.food)
    (hnc : (updateSnake g).bind checkCollision = some false) :
    ∃ g', gameLoopTick fuel g = some g' ∧ g'.snake.length = g.snake.length := by
  have hu := updateSnake_cons g head rest hs
  rw [hu] at hnc
  have hf : checkFoodCollision
      { g with snake := moveHead g.currentDirection head :: g.snake.dropLast } = some false := by
    rw [checkFoodCollision_cons _ _ _ rfl]
    have : moveHead g.currentDirection head ≠
        Game.food { g with snake := moveHead g.currentDirection head :: g.snake.dropLast } :=
      hfood
    simp [this]
  refine ⟨_, gameLoopTick_plain fuel g _ hu hnc hf, ?_⟩
  simp [hs]

/-- Witness for C8 (amended): the initial body moving Right with the food at
(5,5). -/
theorem gameLoopTick_plain_length_witness :
    ∃ g', gameLoopTick 0 startState = some g' ∧ g'.snake.length = startState.snake.length :=
  gameLoopTick_plain_length startState ⟨10, 10⟩ [⟨9, 10⟩, ⟨8, 10⟩] 0 rfl (by decide) (by decide)

/-! ## Direction requests and movement -/

/-- C9: one press or repeat of an arrow key leaves the direction unchanged when
the requested direction is the exact opposite of the current one and otherwise
makes the requested direction current; body and food are unchanged, and the
resulting direction is never the opposite of the direction before. -/
theorem keyCallback_request (g : Game) (key : Key) (action : Action) (d : Direction)
    (hkey : key.requested = some d)
    (hact : action = Action.PRESS ∨ action = Action.REPEAT) :
    (keyCallback g key action).currentDirection
        = (if d = g.currentDirection.opposite then g.currentDirection else d) ∧
      (keyCallback g key action).snake = g.snake ∧
      (keyCallback g key action).foodX = g.foodX ∧
      (keyCallback g key action).foodY = g.foodY ∧
      (keyCallback g key action).currentDirection ≠ g.currentDirection.opposite := by
  obtain ⟨cur, sn, fx, fy, r⟩ := g
  cases key <;> cases d <;> simp [Key.requested] at hkey <;>
    rcases hact with rfl | rfl <;> cases cur <;>
    simp [keyCallback, Direction.opposite]

/-- Witness for C9: Left is requested while heading Right and is rejected. -/
theorem keyCallback_request_witness :
    (keyCallback startState Key.KEY_LEFT Action.PRESS).currentDirection
        = (if Direction.LEFT = startState.currentDirection.opposite
            then startState.currentDirection else Direction.LEFT) ∧
      (keyCallback startState Key.KEY_LEFT Action.PRESS).snake = startState.snake ∧
      (keyCallback startState Key.KEY_LEFT Action.PRESS).foodX = startState.foodX ∧
      (keyCallback startState Key.KEY_LEFT Action.PRESS).foodY = startState.foodY ∧
      (keyCallback startState Key.KEY_LEFT Action.PRESS).currentDirection
        ≠ startState.currentDirection.opposite :=
  keyCallback_request startState Key.KEY_LEFT Action.PRESS Direction.LEFT rfl (Or.inl rfl)

/-- C10: on a non-empty body `updateSnake` returns the state whose body is the
old head moved by the unit vector of the direction, followed by the old body
without its last cell; the length, the direction and the food are unchanged. -/
theorem updateSnake_spec (g : Game) (head : SnakeSegment) (rest : List SnakeSegment)
    (hs : g.snake = head :: rest) :
    ∃ g', updateSnake g = some g' ∧
      g'.snake = ⟨head.x + g.currentDirection.unitVector.1,
                  head.y + g.currentDirection.unitVector.2⟩ :: g.snake.dropLast ∧
      g'.snake.length = g.snake.length ∧
      g'.currentDirection = g.currentDirection ∧
      g'.foodX = g.foodX ∧ g'.foodY = g.foodY := by
  refine ⟨_, updateSnake_cons g head rest hs, ?_, ?_, rfl, rfl, rfl⟩
  · simp only [moveHead_unitVector]
  · simp [hs]

/-- Witness for C10: body (10,10),(9,10),(8,10) heading Right becomes
(11,10),(10,10),(9,10). -/
theorem updateSnake_spec_witness :
    ∃ g', updateSnake startState = some g' ∧
      g'.snake = [⟨11, 10⟩, ⟨10, 10⟩, ⟨9, 10⟩] ∧
      g'.snake.length = startState.snake.length ∧
      g'.currentDirection = startState.currentDirection ∧
      g'.foodX = startState.foodX ∧ g'.foodY = startState.foodY :=
  updateSnake_spec startState ⟨10, 10⟩ [⟨9, 10⟩, ⟨8, 10⟩] rfl

/-! ## Shape of a tick -/

theorem spawnFood_some_placed : ∀ (fuel : Nat) (g g' : Game), spawnFood fuel g = some g' →
    ∃ k, g' = foodPlaced g k ∧ sampleAt g.rng k ∉ g.snake := by
  intro fuel
  induction fuel with
  | zero =>
    intro g g' h
    simp [spawnFood] at h
  | succ f ih =>
    intro g g' h
    unfold spawnFood at h
    by_cases hc : onSnake g.snake (g.rng 0) (g.rng 1) = true
    · simp only [hc, if_true] at h
      obtain ⟨k, hk, hfree⟩ := ih _ _ h
      refine ⟨k + 1, ?_, ?_⟩
      · rw [hk]
        simp only [foodPlaced]
        have e1 : 2 * k + 2 = 2 * (k + 1) := by omega
        have e2 : 2 * k + 1 + 2 = 2 * (k + 1) + 1 := by omega
        have e3 : ∀ n, n + 2 * (k + 1) + 2 = n + 2 * (k + 1 + 1) := by intro n; omega
        simp only [e1, e2, e3]
      · have hshift : sampleAt (fun n => g.rng (n + 2)) k = sampleAt g.rng (k + 1) := by
          simp [sampleAt, Nat.mul_add, Nat.add_assoc]
        simpa [hshift] using hfree
    · simp only [hc] at h
      have hg : g' = { g with foodX := g.rng 0, foodY := g.rng 1, rng := fun n => g.rng (n + 2) } := by
        simpa using h.symm
      refine ⟨0, ?_, ?_⟩
      · rw [hg]
        simp [foodPlaced]
      · rw [onSnake_iff] at hc
        simpa [sampleAt] using hc

theorem gameLoopTick_cases (fuel : Nat) (g g' : Game) (h : gameLoopTick fuel g = some g') :
    ∃ head rest, g.snake = head :: rest ∧
      (((¬ inGrid (moveHead g.currentDirection head) ∨
            moveHead g.currentDirection head ∈ g.snake.dropLast) ∧
          ∃ k, g' = foodPlaced { g with snake := initialSnake } k ∧
            sampleAt g.rng k ∉ initialSnake) ∨
        (inGrid (moveHead g.currentDirection head) ∧
          moveHead g.currentDirection head ∉ g.snake.dropLast ∧
          moveHead g.currentDirection head ≠ g.food ∧
          g' = { g with snake := moveHead g.currentDirection head :: g.snake.dropLast }) ∨
        (inGrid (moveHead g.currentDirection head) ∧
          moveHead g.currentDirection head ∉ g.snake.dropLast ∧
          moveHead g.currentDirection head = g.food ∧
          ∃ k, g' = foodPlaced
              { g with snake := moveHead g.currentDirection head :: g.snake.dropLast
                  ++ [moveHead g.currentDirection head] } k ∧
            sampleAt g.rng k ∉ moveHead g.currentDirection head :: g.snake.dropLast
                  ++ [moveHead g.currentDirection head])) := by
  cases hsn : g.snake with
  | nil => simp [gameLoopTick, updateSnake, hsn] at h
  | cons head rest =>
    refine ⟨head, rest, rfl, ?_⟩
    rw [← hsn]
    have hu := updateSnake_cons g head rest hsn
    have hc := checkCollision_cons
      { g with snake := moveHead g.currentDirection head :: g.snake.dropLast } _ _ rfl
    by_cases hcol : ¬ inGrid (moveHead g.currentDirection head) ∨
        moveHead g.currentDirection head ∈ g.snake.dropLast
    · left
      refine ⟨hcol, ?_⟩
      rw [decide_eq_true hcol] at hc
      cases hi : initGame fuel
          { g with snake := moveHead g.currentDirection head :: g.snake.dropLast } with
      | none => simp [gameLoopTick, hu, hc, hi] at h
      | some g2 =>
        rw [gameLoopTick_reset fuel g _ g2 hu hc hi] at h
        cases h
        exact spawnFood_some_placed fuel _ _ hi
    · right
      rw [decide_eq_false hcol] at hc
      have hin : inGrid (moveHead g.currentDirection head) := by
        by_contra hn
        exact hcol (Or.inl hn)
      have hnm : moveHead g.currentDirection head ∉ g.snake.dropLast :=
        fun hm => hcol (Or.inr hm)
      have hf := checkFoodCollision_cons
        { g with snake := moveHead g.currentDirection head :: g.snake.dropLast } _ _ rfl
      by_cases heat : moveHead g.currentDirection head = g.food
      · right
        refine ⟨hin, hnm, heat, ?_⟩
        have hf2 : checkFoodCollision
            { g with snake := moveHead g.currentDirection head :: g.snake.dropLast }
              = some true := by
          rw [hf]
          exact congrArg some (decide_eq_true heat)
        rw [gameLoopTick_eat fuel g _ hu hc hf2] at h
        have hfood : (⟨g.foodX, g.foodY⟩ : SnakeSegment) = moveHead g.currentDirection head :=
          heat.symm
        simp only [hfood] at h
        exact spawnFood_some_placed fuel _ _ h
      · left
        refine ⟨hin, hnm, heat, ?_⟩
        have hf2 : checkFoodCollision
            { g with snake := moveHead g.currentDirection head :: g.snake.dropLast }
              = some false := by
          rw [hf]
          exact congrArg some (decide_eq_false heat)
        rw [gameLoopTick_plain fuel g _ hu hc hf2] at h
        cases h
        rfl

theorem keyCallback_fields (g : Game) (key : Key) (action : Action) :
    (keyCallback g key action).snake = g.snake ∧
      (keyCallback g key action).foodX = g.foodX ∧
      (keyCallback g key action).foodY = g.foodY ∧
      (keyCallback g key action).rng = g.rng := by
  obtain ⟨d, sn, fx, fy, r⟩ := g
  cases key <;> cases action <;> cases d <;> simp [keyCallback]

theorem initGame_placed (fuel : Nat) (g g' : Game) (h : initGame fuel g = some g') :
    ∃ k, g' = foodPlaced { g with snake := initialSnake } k ∧
      sampleAt g.rng k ∉ initialSnake :=
  spawnFood_some_placed fuel _ _ h

theorem reachable_freshState : Reachable freshState :=
  Reachable.init 1 (constRng 5 5) freshState rfl

theorem reachable_grownState : Reachable grownState :=
  Reachable.tick 1 fedState grownState (Reachable.init 1 feedRng fedState rfl) rfl

/-! ## Invariants of reachable states -/

theorem gameLoopTick_length (fuel : Nat) (g g' : Game) (h : gameLoopTick fuel g = some g')
    (hlen : INITIAL_SNAKE_LENGTH ≤ g.snake.length) :
    INITIAL_SNAKE_LENGTH ≤ g'.snake.length := by
  obtain ⟨head, rest, hs, hcase⟩ := gameLoopTick_cases fuel g g' h
  rcases hcase with ⟨-, k, rfl, -⟩ | ⟨-, -, -, rfl⟩ | ⟨-, -, -, k, rfl, -⟩
  · simp [foodPlaced, initialSnake_eq, INITIAL_SNAKE_LENGTH]
  · simp only [List.length_cons, List.length_dropLast]
    omega
  · simp only [foodPlaced, List.length_append, List.length_cons, List.length_dropLast,
      List.length_nil]
    omega

theorem reachable_length (g : Game) (h : Reachable g) :
    INITIAL_SNAKE_LENGTH ≤ g.snake.length := by
  induction h with
  | init fuel rng g hi =>
    obtain ⟨k, rfl, -⟩ := initGame_placed fuel _ _ hi
    simp [foodPlaced, initialSnake_eq, INITIAL_SNAKE_LENGTH]
  | tick fuel g g' _ ht ih => exact gameLoopTick_length fuel g g' ht ih
  | key g key action _ ih =>
    rw [(keyCallback_fields g key action).1]
    exact ih

theorem initialSnake_allInGrid : AllInGrid initialSnake := by
  rw [initialSnake_eq]
  intro s hs
  simp only [List.mem_cons, List.mem_singleton, List.not_mem_nil, or_false] at hs
  rcases hs with rfl | rfl | rfl <;> decide

theorem gameLoopTick_allInGrid (fuel : Nat) (g g' : Game)
    (h : gameLoopTick fuel g = some g') (hin : AllInGrid g.snake) :
    AllInGrid g'.snake := by
  obtain ⟨head, rest, hs, hcase⟩ := gameLoopTick_cases fuel g g' h
  have hdrop : ∀ s ∈ g.snake.dropLast, inGrid s :=
    fun s hs => hin s (List.dropLast_subset _ hs)
  rcases hcase with ⟨-, k, rfl, -⟩ | ⟨hnh, -, -, rfl⟩ | ⟨hnh, -, -, k, rfl, -⟩
  · exact initialSnake_allInGrid
  · intro s hs
    simp only [List.mem_cons] at hs
    rcases hs with rfl | hs
    · exact hnh
    · exact hdrop s hs
  · intro s hs
    simp only [foodPlaced, List.mem_append, List.mem_cons, List.mem_singleton,
      List.not_mem_nil, or_false] at hs
    rcases hs with (rfl | hs) | rfl
    · exact hnh
    · exact hdrop s hs
    · exact hnh

theorem initialSnake_distinct : DistinctButLast initialSnake := by
  rw [initialSnake_eq]
  exact ⟨by decide, Or.inl (by decide)⟩

theorem gameLoopTick_distinct (fuel : Nat) (g g' : Game)
    (h : gameLoopTick fuel g = some g') (hd : DistinctButLast g.snake) :
    DistinctButLast g'.snake := by
  obtain ⟨head, rest, hs, hcase⟩ := gameLoopTick_cases fuel g g' h
  have hcons : ∀ c, c ∉ g.snake.dropLast → (c :: g.snake.dropLast).Nodup :=
    fun c hc => List.nodup_cons.2 ⟨hc, hd.1⟩
  rcases hcase with ⟨-, k, rfl, -⟩ | ⟨-, hnm, -, rfl⟩ | ⟨-, hnm, -, k, rfl, -⟩
  · exact initialSnake_distinct
  · exact ⟨(hcons _ hnm).sublist (List.dropLast_sublist _), Or.inl (hcons _ hnm)⟩
  · refine ⟨?_, Or.inr ?_⟩
    · simp only [foodPlaced, List.dropLast_concat]
      exact hcons _ hnm
    · simp only [foodPlaced]
      rw [List.getLast?_concat]
      rfl

theorem reachable_allInGrid_aux (g : Game) (h : Reachable g) : AllInGrid g.snake := by
  induction h with
  | init fuel rng g hi =>
    obtain ⟨k, rfl, -⟩ := initGame_placed fuel _ _ hi
    exact initialSnake_allInGrid
  | tick fuel g g' _ ht ih => exact gameLoopTick_allInGrid fuel g g' ht ih
  | key g key action _ ih =>
    rw [(keyCallback_fields g key action).1]
    exact ih

/-- C11, as stated, fails: the state reached from program start by one tick
that eats (food drawn at (11,10), right in front of the head) has the body
(11,10),(10,10),(9,10),(11,10), whose first and last segments coincide. -/
theorem reachable_body_with_duplicate :
    ∃ g, Reachable g ∧ g.snake = [⟨11, 10⟩, ⟨10, 10⟩, ⟨9, 10⟩, ⟨11, 10⟩] ∧ ¬ g.snake.Nodup :=
  ⟨grownState, reachable_grownState, rfl, by decide⟩

/-- C11 (amended): in every state reachable from `initGame` by ticks and key
events, observed between ticks, the segments before the last one have pairwise
different coordinates, and the last segment either differs from all of them or
is a copy of the head (the cell appended by a tick that ate). -/
theorem reachable_distinct_but_last (g : Game) (h : Reachable g) :
    g.snake.dropLast.Nodup ∧ (g.snake.Nodup ∨ g.snake.getLast? = g.snake.head?) := by
  have key : DistinctButLast g.snake := by
    induction h with
    | init fuel rng g hi =>
      obtain ⟨k, rfl, -⟩ := initGame_placed fuel _ _ hi
      exact initialSnake_distinct
    | tick fuel g g' _ ht ih => exact gameLoopTick_distinct fuel g g' ht ih
    | key g key action _ ih =>
      rw [(keyCallback_fields g key action).1]
      exact ih
  exact key

/-- Witness for C11 (amended): the state right after the first meal. -/
theorem reachable_distinct_but_last_witness :
    grownState.snake.dropLast.Nodup ∧
      (grownState.snake.Nodup ∨ grownState.snake.getLast? = grownState.snake.head?) :=
  reachable_distinct_but_last grownState reachable_grownState

/-- C12: in every state reachable from `initGame` by ticks and key events the
body has at least `INITIAL_SNAKE_LENGTH` = 3 segments; hence `updateSnake`
reads the front of a non-empty body and returns a body of the same length (its
`pop_back` does not empty it), and `checkCollision` and `checkFoodCollision`
read the front of a non-empty body, also after a reset by `initGame`. -/
theorem reachable_body_nonempty (g : Game) (h : Reachable g) :
    INITIAL_SNAKE_LENGTH ≤ g.snake.length ∧ g.snake ≠ [] ∧
      ∃ g1, updateSnake g = some g1 ∧ g1.snake.length = g.snake.length ∧ g1.snake ≠ [] ∧
        (∃ c, checkCollision g1 = some c) ∧ (∃ f, checkFoodCollision g1 = some f) ∧
        ∀ fuel g2, initGame fuel g1 = some g2 → ∃ f, checkFoodCollision g2 = some f := by
  have hlen := reachable_length g h
  simp only [INITIAL_SNAKE_LENGTH] at hlen
  obtain ⟨head, rest, hs⟩ : ∃ head rest, g.snake = head :: rest := by
    cases hsn : g.snake with
    | nil => simp [hsn] at hlen
    | cons a l => exact ⟨a, l, rfl⟩
  refine ⟨by simpa [INITIAL_SNAKE_LENGTH] using hlen, by simp [hs],
    _, updateSnake_cons g head rest hs, ?_, by simp,
    ⟨_, checkCollision_cons _ _ _ rfl⟩, ⟨_, checkFoodCollision_cons _ _ _ rfl⟩, ?_⟩
  · simp only [List.length_cons, List.length_dropLast]
    omega
  · intro fuel g2 hi
    obtain ⟨k, rfl, -⟩ := initGame_placed fuel _ _ hi
    exact ⟨_, checkFoodCollision_cons _ ⟨10, 10⟩ [⟨9, 10⟩, ⟨8, 10⟩]
      (by simp [foodPlaced, initialSnake_eq])⟩

/-- Witness for C12: the state `initGame` returns at program start. -/
theorem reachable_body_nonempty_witness :
    INITIAL_SNAKE_LENGTH ≤ freshState.snake.length ∧ freshState.snake ≠ [] ∧
      ∃ g1, updateSnake freshState = some g1 ∧ g1.snake.length = freshState.snake.length ∧
        g1.snake ≠ [] ∧
        (∃ c, checkCollision g1 = some c) ∧ (∃ f, checkFoodCollision g1 = some f) ∧
        ∀ fuel g2, initGame fuel g1 = some g2 → ∃ f, checkFoodCollision g2 = some f :=
  reachable_body_nonempty freshState reachable_freshState

/-- C13: in every state reachable from `initGame` by ticks and key events,
observed between ticks, every body segment has both coordinates in
`[0, GRID_SIZE)`; the same holds after any further tick, and a tick whose moved
head leaves the grid ends with the reset body. -/
theorem reachable_allInGrid (g : Game) (h : Reachable g) :
    (∀ s ∈ g.snake, 0 ≤ s.x ∧ s.x < GRID_SIZE ∧ 0 ≤ s.y ∧ s.y < GRID_SIZE) ∧
      ∀ fuel g', gameLoopTick fuel g = some g' →
        (∀ s ∈ g'.snake, 0 ≤ s.x ∧ s.x < GRID_SIZE ∧ 0 ≤ s.y ∧ s.y < GRID_SIZE) ∧
        ((∃ head rest, g.snake = head :: rest ∧
            ¬ inGrid (moveHead g.currentDirection head)) →
          g'.snake = [⟨10, 10⟩, ⟨9, 10⟩, ⟨8, 10⟩]) := by
  have hin := reachable_allInGrid_aux g h
  refine ⟨hin, fun fuel g' ht => ⟨gameLoopTick_allInGrid fuel g g' ht hin, ?_⟩⟩
  rintro ⟨head, rest, hs, hout⟩
  obtain ⟨head', rest', hs', hcase⟩ := gameLoopTick_cases fuel g g' ht
  rw [hs] at hs'
  cases hs'
  rcases hcase with ⟨-, k, rfl, -⟩ | ⟨hnh, -⟩ | ⟨hnh, -⟩
  · simp [foodPlaced, initialSnake_eq]
  · exact absurd hnh hout
  · exact absurd hnh hout

/-- Witness for C13: the state `initGame` returns at program start. -/
theorem reachable_allInGrid_witness :
    (∀ s ∈ freshState.snake, 0 ≤ s.x ∧ s.x < GRID_SIZE ∧ 0 ≤ s.y ∧ s.y < GRID_SIZE) ∧
      ∀ fuel g', gameLoopTick fuel freshState = some g' →
        (∀ s ∈ g'.snake, 0 ≤ s.x ∧ s.x < GRID_SIZE ∧ 0 ≤ s.y ∧ s.y < GRID_SIZE) ∧
        ((∃ head rest, freshState.snake = head :: rest ∧
            ¬ inGrid (moveHead freshState.currentDirection head)) →
          g'.snake = [⟨10, 10⟩, ⟨9, 10⟩, ⟨8, 10⟩]) :=
  reachable_allInGrid freshState reachable_freshState

/-! ## The food invariant -/

theorem sampleAt_inGrid (rng : Nat → Int) (hr : rngInRange rng) (k : Nat) :
    inGrid (sampleAt rng k) := by
  have h1 := hr (2 * k)
  have h2 := hr (2 * k + 1)
  simp only [GRID_SIZE] at h1 h2
  simp only [inGrid, sampleAt, GRID_SIZE]
  omega

theorem foodPlaced_ok (g : Game) (k : Nat) (hr : rngInRange g.rng)
    (hfree : sampleAt g.rng k ∉ g.snake) :
    FoodOK (foodPlaced g k) ∧ rngInRange (foodPlaced g k).rng :=
  ⟨⟨sampleAt_inGrid g.rng hr k, hfree⟩, fun n => hr (n + 2 * (k + 1))⟩

theorem constRng_inRange (a b : Int) (ha : 0 ≤ a ∧ a ≤ GRID_SIZE - 1)
    (hb : 0 ≤ b ∧ b ≤ GRID_SIZE - 1) : rngInRange (constRng a b) := by
  intro n
  unfold constRng
  split
  · exact ha
  · exact hb

theorem sampleAt_constRng (a b : Int) (k : Nat) : sampleAt (constRng a b) k = ⟨a, b⟩ := by
  have h0 : 2 * k % 2 = 0 := by omega
  have h1 : (2 * k + 1) % 2 ≠ 0 := by omega
  simp only [sampleAt, constRng, h0, h1, if_true, if_false]

/-- C14: the predicate "the food cell is inside the grid and coincides with no
body segment" holds in every state `initGame` returns and is preserved by every
full tick and by every key event, for a random source whose samples lie in
`[0, GRID_SIZE - 1]` (a property the tick and the key events preserve too). -/
theorem foodOK_invariant (g : Game) (hr : rngInRange g.rng) :
    (∀ fuel g', initGame fuel g = some g' → FoodOK g' ∧ rngInRange g'.rng) ∧
    (FoodOK g → ∀ fuel g', gameLoopTick fuel g = some g' →
      FoodOK g' ∧ rngInRange g'.rng) ∧
    (FoodOK g → ∀ key action,
      FoodOK (keyCallback g key action) ∧ rngInRange (keyCallback g key action).rng) := by
  refine ⟨?_, ?_, ?_⟩
  · intro fuel g' hi
    obtain ⟨k, rfl, hfree⟩ := initGame_placed fuel _ _ hi
    exact foodPlaced_ok _ k hr hfree
  · intro hok fuel g' ht
    obtain ⟨head, rest, hs, hcase⟩ := gameLoopTick_cases fuel g g' ht
    rcases hcase with ⟨-, k, rfl, hfree⟩ | ⟨-, -, hne, rfl⟩ | ⟨-, -, -, k, rfl, hfree⟩
    · exact foodPlaced_ok _ k hr hfree
    · refine ⟨⟨hok.1, ?_⟩, hr⟩
      intro hmem
      have hmem2 : g.food ∈ moveHead g.currentDirection head :: g.snake.dropLast := hmem
      rcases List.mem_cons.1 hmem2 with heq | hin
      · exact hne heq.symm
      · exact hok.2 (List.dropLast_subset _ hin)
    · exact foodPlaced_ok _ k hr hfree
  · intro hok key action
    obtain ⟨h1, h2, h3, h4⟩ := keyCallback_fields g key action
    refine ⟨?_, by rw [h4]; exact hr⟩
    unfold FoodOK Game.food
    rw [h1, h2, h3]
    exact hok

/-- Witness for C14: the food lies in front of the head, is eaten by the tick
and is respawned off the new body. -/
theorem foodOK_invariant_witness :
    FoodOK eatState ∧
      ∃ g', gameLoopTick 1 eatState = some g' ∧ FoodOK g' ∧ rngInRange g'.rng :=
  ⟨by decide,
    ⟨Direction.RIGHT, [⟨11, 10⟩, ⟨10, 10⟩, ⟨9, 10⟩, ⟨11, 10⟩], 5, 5,
      fun n => constRng 5 5 (n + 2)⟩, rfl,
    (foodOK_invariant eatState (constRng_inRange 5 5 (by decide) (by decide))).2.1
      (by decide) 1 _ rfl⟩

/-! ## The reset loop when heading Left -/

theorem offersFreeCells_shift (rng : Nat → Int) (body : List SnakeSegment) (k : Nat)
    (h : offersFreeCells rng body) :
    offersFreeCells (fun n => rng (n + 2 * (k + 1))) body := by
  intro m
  obtain ⟨j, hj, hfree⟩ := h (m + (k + 1))
  refine ⟨j - (k + 1), by omega, ?_⟩
  have e : sampleAt (fun n => rng (n + 2 * (k + 1))) (j - (k + 1)) = sampleAt rng j := by
    have e1 : 2 * (j - (k + 1)) + 2 * (k + 1) = 2 * j := by omega
    have e2 : 2 * (j - (k + 1)) + 1 + 2 * (k + 1) = 2 * j + 1 := by omega
    simp only [sampleAt, e1, e2]
  rw [e]
  exact hfree

theorem leftReset_tick (g : Game)
    (hs : g.snake = [⟨10, 10⟩, ⟨9, 10⟩, ⟨8, 10⟩])
    (hd : g.currentDirection = Direction.LEFT)
    (hrng : offersFreeCells g.rng initialSnake) :
    ∃ k, ∀ fuel, k < fuel →
      gameLoopTick fuel g = some (foodPlaced { g with snake := initialSnake } k) := by
  have hu := updateSnake_cons g ⟨10, 10⟩ [⟨9, 10⟩, ⟨8, 10⟩] hs
  have hc : checkCollision
      { g with snake := moveHead g.currentDirection ⟨10, 10⟩ :: g.snake.dropLast }
        = some true := by
    rw [checkCollision_cons _ _ _ rfl, hs, hd]
    decide
  obtain ⟨k0, -, hk0⟩ := hrng 0
  exact (gameLoopTick_reset_result g _ hu hc ⟨k0, hk0⟩).imp fun k hk => hk.2

theorem leftReset_ticks : ∀ (n : Nat) (g : Game),
    g.snake = [⟨10, 10⟩, ⟨9, 10⟩, ⟨8, 10⟩] → g.currentDirection = Direction.LEFT →
    offersFreeCells g.rng initialSnake →
    ∃ N, ∀ fuel, N ≤ fuel → ∃ g', gameLoopTicks fuel n g = some g' ∧
      g'.snake = [⟨10, 10⟩, ⟨9, 10⟩, ⟨8, 10⟩] ∧ g'.currentDirection = Direction.LEFT := by
  intro n
  induction n with
  | zero =>
    intro g hs hd _
    exact ⟨0, fun fuel _ => ⟨g, rfl, hs, hd⟩⟩
  | succ n ih =>
    intro g hs hd hrng
    obtain ⟨k, hk⟩ := leftReset_tick g hs hd hrng
    obtain ⟨N, hN⟩ := ih (foodPlaced { g with snake := initialSnake } k)
      (by simp [foodPlaced, initialSnake_eq]) hd
      (offersFreeCells_shift g.rng initialSnake k hrng)
    refine ⟨max (k + 1) N, fun fuel hfuel => ?_⟩
    have h1 : k < fuel := by omega
    have h2 : N ≤ fuel := by omega
    obtain ⟨g', hg', hres⟩ := hN fuel h2
    refine ⟨g', ?_, hres⟩
    simp only [gameLoopTicks, hk fuel h1, Option.some_bind]
    exact hg'

/-- C15: in a state with the freshly reset body (10,10),(9,10),(8,10) and
direction Left, the moved head lands on (9,10) and the moved body collides; for
every `n`, `n` ticks without key event end (given enough loop fuel and a sample
stream that keeps offering cells off the initial body) with the same body and
direction Left. A Right key event leaves the state unchanged, every key event
other than a press or repeat of Up or Down leaves it unchanged, and after a
press or repeat of Up or Down the moved body no longer collides. -/
theorem left_reset_loop (g : Game)
    (hs : g.snake = [⟨10, 10⟩, ⟨9, 10⟩, ⟨8, 10⟩])
    (hd : g.currentDirection = Direction.LEFT)
    (hrng : offersFreeCells g.rng initialSnake) :
    (∀ n, ∃ N, ∀ fuel, N ≤ fuel → ∃ g', gameLoopTicks fuel n g = some g' ∧
        g'.snake = [⟨10, 10⟩, ⟨9, 10⟩, ⟨8, 10⟩] ∧ g'.currentDirection = Direction.LEFT) ∧
      (∃ g1, updateSnake g = some g1 ∧ g1.snake.head? = some ⟨9, 10⟩ ∧
        checkCollision g1 = some true) ∧
      (∀ action, keyCallback g Key.KEY_RIGHT action = g) ∧
      (∀ key action, keyCallback g key action = g ∨
        ((key = Key.KEY_UP ∨ key = Key.KEY_DOWN) ∧
          (action = Action.PRESS ∨ action = Action.REPEAT))) ∧
      (∀ key action, key = Key.KEY_UP ∨ key = Key.KEY_DOWN →
        action = Action.PRESS ∨ action = Action.REPEAT →
        (keyCallback g key action).currentDirection ≠ Direction.LEFT ∧
        (updateSnake (keyCallback g key action)).bind checkCollision = some false) := by
  refine ⟨fun n => leftReset_ticks n g hs hd hrng, ?_, ?_, ?_, ?_⟩
  · refine ⟨_, updateSnake_cons g ⟨10, 10⟩ [⟨9, 10⟩, ⟨8, 10⟩] hs, ?_, ?_⟩
    · rw [hd]
      rfl
    · rw [checkCollision_cons _ _ _ rfl, hs, hd]
      decide
  · intro action
    obtain ⟨d, sn, fx, fy, r⟩ := g
    simp only at hd
    subst hd
    cases action <;> simp [keyCallback]
  · intro key action
    obtain ⟨d, sn, fx, fy, r⟩ := g
    simp only at hd
    subst hd
    cases key <;> cases action <;> simp [keyCallback]
  · intro key action hkey hact
    obtain ⟨d, sn, fx, fy, r⟩ := g
    simp only at hd hs
    subst hd
    subst hs
    rcases hkey with rfl | rfl <;> rcases hact with rfl | rfl <;>
      simp [keyCallback] <;> rfl

/-- Witness for C15: the reset body heading Left with every sample equal to 5. -/
theorem left_reset_loop_witness :
    (∀ n, ∃ N, ∀ fuel, N ≤ fuel → ∃ g', gameLoopTicks fuel n leftResetState = some g' ∧
        g'.snake = [⟨10, 10⟩, ⟨9, 10⟩, ⟨8, 10⟩] ∧ g'.currentDirection = Direction.LEFT) ∧
      (∃ g1, updateSnake leftResetState = some g1 ∧ g1.snake.head? = some ⟨9, 10⟩ ∧
        checkCollision g1 = some true) ∧
      (∀ action, keyCallback leftResetState Key.KEY_RIGHT action = leftResetState) ∧
      (∀ key action, keyCallback leftResetState key action = leftResetState ∨
        ((key = Key.KEY_UP ∨ key = Key.KEY_DOWN) ∧
          (action = Action.PRESS ∨ action = Action.REPEAT))) ∧
      (∀ key action, key = Key.KEY_UP ∨ key = Key.KEY_DOWN →
        action = Action.PRESS ∨ action = Action.REPEAT →
        (keyCallback leftResetState key action).currentDirection ≠ Direction.LEFT ∧
        (updateSnake (keyCallback leftResetState key action)).bind checkCollision
          = some false) :=
  left_reset_loop leftResetState rfl rfl
    (fun m => ⟨m, Nat.le_refl m, by rw [initialSnake_eq]; simp [leftResetState, sampleAt_constRng]⟩)

/-! ## Growth compared with the reference step -/

theorem keyEvents_fields : ∀ (events : List (Key × Action)) (g : Game),
    (keyEvents g events).snake = g.snake ∧ (keyEvents g events).foodX = g.foodX ∧
      (keyEvents g events).foodY = g.foodY := by
  intro events
  induction events with
  | nil =>
    intro g
    exact ⟨rfl, rfl, rfl⟩
  | cons e tl ih =>
    intro g
    have hstep : keyEvents g (e :: tl) = keyEvents (keyCallback g e.1 e.2) tl := rfl
    obtain ⟨h1, h2, h3, -⟩ := keyCallback_fields g e.1 e.2
    obtain ⟨i1, i2, i3⟩ := ih (keyCallback g e.1 e.2)
    rw [hstep]
    exact ⟨i1.trans h1, i2.trans h2, i3.trans h3⟩

theorem getLast?_mem_of_eq (l : List SnakeSegment) (c : SnakeSegment)
    (h : l.getLast? = some c) : c ∈ l := by
  induction l with
  | nil => simp at h
  | cons a tl ih =>
    cases tl with
    | nil =>
      simp at h
      simp [h]
    | cons b tl2 =>
      rw [List.getLast?_cons_cons] at h
      exact List.mem_cons_of_mem _ (ih h)

theorem specStepBody_eat (d : Direction) (food head : SnakeSegment)
    (rest : List SnakeSegment) (heat : moveHead d head = food)
    (hgrid : inGrid food) (hoff : food ∉ head :: rest) :
    specStepBody d food (head :: rest) = food :: head :: rest := by
  have hnew : (⟨head.x + d.unitVector.1, head.y + d.unitVector.2⟩ : SnakeSegment) = food := by
    rw [← moveHead_unitVector]
    exact heat
  have hcol : specCollides (food :: head :: rest) = false := by
    simp only [specCollides]
    exact decide_eq_false (fun h => h.elim (fun h1 => h1 hgrid) hoff)
  simp only [specStepBody, hnew, if_true, hcol]
  rfl

theorem specStepBody_plain (d : Direction) (food head : SnakeSegment)
    (rest : List SnakeSegment) (hne : moveHead d head ≠ food)
    (hgrid : inGrid (moveHead d head))
    (hoff : moveHead d head ∉ (head :: rest).dropLast) :
    specStepBody d food (head :: rest) = moveHead d head :: (head :: rest).dropLast := by
  have hnew : (⟨head.x + d.unitVector.1, head.y + d.unitVector.2⟩ : SnakeSegment)
      = moveHead d head := (moveHead_unitVector d head).symm
  have hcol : specCollides (moveHead d head :: (head :: rest).dropLast) = false := by
    simp only [specCollides]
    exact decide_eq_false (fun h => h.elim (fun h1 => h1 hgrid) hoff)
  simp only [specStepBody, hnew, hne, if_false, List.dropLast_cons₂, hcol]
  rfl

/-- C16: from a state satisfying the food invariant with non-empty body `B`, if
a tick eats (new head `h1`) and the next tick, after any key events, neither
collides nor eats (new head `h2`), then the body after the second tick is
`h2`, `h1`, then `B` without its last cell, which is the body the reference
step (tail kept on eating) yields after the same two steps; after the first
tick the last cell of the code's body is a copy of the head `h1`, not the last
cell of `B`, while the reference body is `h1` followed by all of `B`. -/
theorem growth_one_tick_late (g g1 : Game) (head : SnakeSegment) (rest : List SnakeSegment)
    (fuel1 fuel2 : Nat) (events : List (Key × Action))
    (hs : g.snake = head :: rest)
    (hok : FoodOK g)
    (heat : moveHead g.currentDirection head = g.food)
    (ht1 : gameLoopTick fuel1 g = some g1)
    (hnc : (updateSnake (keyEvents g1 events)).bind checkCollision = some false)
    (hne : moveHead (keyEvents g1 events).currentDirection
        (moveHead g.currentDirection head) ≠ (keyEvents g1 events).food) :
    g1.snake = moveHead g.currentDirection head :: g.snake.dropLast
        ++ [moveHead g.currentDirection head] ∧
      g1.snake.getLast? = g1.snake.head? ∧
      g.snake.getLast? ≠ g1.snake.getLast? ∧
      specStepBody g.currentDirection g.food g.snake
        = moveHead g.currentDirection head :: g.snake ∧
      ∃ g2, gameLoopTick fuel2 (keyEvents g1 events) = some g2 ∧
        g2.snake = moveHead (keyEvents g1 events).currentDirection
            (moveHead g.currentDirection head)
          :: moveHead g.currentDirection head :: g.snake.dropLast ∧
        g2.snake = specStepBody (keyEvents g1 events).currentDirection
          (keyEvents g1 events).food
          (specStepBody g.currentDirection g.food g.snake) := by
  have hoffD : g.food ∉ g.snake.dropLast := fun hin => hok.2 (List.dropLast_subset _ hin)
  -- the first tick takes the eating branch
  have hsn1 : g1.snake = moveHead g.currentDirection head :: g.snake.dropLast
      ++ [moveHead g.currentDirection head] := by
    obtain ⟨head', rest', hs', hcase⟩ := gameLoopTick_cases fuel1 g g1 ht1
    rw [hs] at hs'
    cases hs'
    rcases hcase with ⟨hcol, -⟩ | ⟨-, -, hne1, -⟩ | ⟨-, -, -, k, rfl, -⟩
    · rw [heat] at hcol
      exact absurd hcol (fun h => h.elim (fun h1 => h1 hok.1) hoffD)
    · exact absurd heat hne1
    · rfl
  have hlast1 : g1.snake.getLast? = some (moveHead g.currentDirection head) := by
    rw [hsn1, List.getLast?_concat]
  have hspec1 : specStepBody g.currentDirection g.food g.snake
      = moveHead g.currentDirection head :: g.snake := by
    rw [hs, heat]
    exact specStepBody_eat _ _ _ _ heat hok.1 (hs ▸ hok.2)
  -- the state the second tick starts from
  obtain ⟨hes, hefx, hefy⟩ := keyEvents_fields events g1
  have hes2 : (keyEvents g1 events).snake = moveHead g.currentDirection head
      :: (g.snake.dropLast ++ [moveHead g.currentDirection head]) := by
    rw [hes, hsn1]
    rfl
  have hdrop : (keyEvents g1 events).snake.dropLast
      = moveHead g.currentDirection head :: g.snake.dropLast := by
    rw [hes, hsn1, List.dropLast_concat]
  have hu := updateSnake_cons (keyEvents g1 events) _ _ hes2
  rw [hdrop] at hu
  rw [hu] at hnc
  have hc : checkCollision
      { keyEvents g1 events with
        snake := moveHead (keyEvents g1 events).currentDirection
            (moveHead g.currentDirection head)
          :: moveHead g.currentDirection head :: g.snake.dropLast } = some false := hnc
  have hc2 := checkCollision_cons
      { keyEvents g1 events with
        snake := moveHead (keyEvents g1 events).currentDirection
            (moveHead g.currentDirection head)
          :: moveHead g.currentDirection head :: g.snake.dropLast } _ _ rfl
  rw [hc] at hc2
  have hfree2 : ¬ (¬ inGrid (moveHead (keyEvents g1 events).currentDirection
        (moveHead g.currentDirection head)) ∨
      moveHead (keyEvents g1 events).currentDirection (moveHead g.currentDirection head)
        ∈ moveHead g.currentDirection head :: g.snake.dropLast) := by
    intro hcol
    rw [decide_eq_true hcol] at hc2
    cases hc2
  have hgrid2 : inGrid (moveHead (keyEvents g1 events).currentDirection
      (moveHead g.currentDirection head)) := by
    by_contra hn
    exact hfree2 (Or.inl hn)
  have hf : checkFoodCollision
      { keyEvents g1 events with
        snake := moveHead (keyEvents g1 events).currentDirection
            (moveHead g.currentDirection head)
          :: moveHead g.currentDirection head :: g.snake.dropLast } = some false := by
    rw [checkFoodCollision_cons _ _ _ rfl]
    exact congrArg some (decide_eq_false hne)
  refine ⟨hsn1, ?_, ?_, hspec1, _, gameLoopTick_plain fuel2 _ _ hu hc hf, rfl, ?_⟩
  · rw [hlast1, hsn1]
    rfl
  · rw [hlast1]
    intro hl
    have hmem := getLast?_mem_of_eq _ _ hl
    rw [heat] at hmem
    exact hok.2 hmem
  · rw [hspec1, hs]
    rw [specStepBody_plain _ _ _ _ hne hgrid2]
    · rfl
    · rw [List.dropLast_cons₂, ← hs]
      exact fun hin => hfree2 (Or.inr hin)

/-- Witness for C16: the first meal after program start, then a press of Up
and a second tick. -/
theorem growth_one_tick_late_witness :
    grownState.snake = [⟨11, 10⟩, ⟨10, 10⟩, ⟨9, 10⟩, ⟨11, 10⟩] ∧
      specStepBody Direction.RIGHT ⟨11, 10⟩ fedState.snake
        = [⟨11, 10⟩, ⟨10, 10⟩, ⟨9, 10⟩, ⟨8, 10⟩] ∧
      ∃ g2, gameLoopTick 0 grownUpState = some g2 ∧
        g2.snake = [⟨11, 9⟩, ⟨11, 10⟩, ⟨10, 10⟩, ⟨9, 10⟩] ∧
        g2.snake = specStepBody Direction.UP ⟨5, 5⟩
          (specStepBody Direction.RIGHT ⟨11, 10⟩ fedState.snake) := by
  have h := growth_one_tick_late fedState grownState ⟨10, 10⟩ [⟨9, 10⟩, ⟨8, 10⟩] 1 0
    [(Key.KEY_UP, Action.PRESS)] rfl (by decide) (by decide) rfl (by decide) (by decide)
  obtain ⟨h1, -, -, h4, g2, h5, h6, h7⟩ := h
  exact ⟨h1, h4, g2, h5, h6, h7⟩

end Snake
